import Mathlib

set_option maxRecDepth 20000

/-!
Shallow embedding of the upgraderr classification and reconciliation engine
(main.go): the comparator chain, the classifier of handleUpgrade, the dedup
clusterer and removal sweep of handleClean, the cross-seed convergence loop of
handleCross, the Atoi scanner, the canonical-key derivation and getClient.

Modelling conventions.  Machine floats (torrent/file progress) are modelled as
rationals, and the Go byte strings of the scanners over their character lists.
External collaborators are modelled at the interface the spec fixes for them:
the release parser is a parameter `parse : String → Release`; the equality test
`rls.Compare(a, b) == 0` is structural equality of the Release attribute set
(the spec: "if every Release field matches ... the pair is ExactDuplicate");
`rls.MustNormalize` is a lower-case fold; the per-identity ttl caches are pure
memoization (a map for the client cache, the parse function itself for the
title caches); retry-go's `retry.Do` is a call-counting loop in which a
retryable error consumes one attempt and `retry.Unrecoverable` aborts at once,
with errors carried structurally as their embedded numeric codes.
-/

/-- The whitespace bytes `unicode.IsSpace` accepts in the Latin-1 range; Atoi
feeds it single bytes, so only these values can arise. -/
def goIsSpace (c : Char) : Bool :=
  c == ' ' || c == '\t' || c == '\n' || c.toNat == 11 || c.toNat == 12 ||
  c == '\r' || c.toNat == 133 || c.toNat == 160

/-- The unguarded whitespace-skip loop `for ; unicode.IsSpace(rune(buf[i])); i++`
of Atoi.  `none` models the out-of-bounds read `buf[len(buf)]` (a Go runtime
panic) that the loop performs when every byte of the string is whitespace. -/
def skipSpace : List Char → Option (List Char)
  | [] => none
  | c :: rest => if goIsSpace c then skipSpace rest else some (c :: rest)

/-- Go's byte arithmetic `int(buf[i] - '0')` on an ASCII byte: unsigned
subtraction wrapping modulo 256, then widened, so the result is never negative. -/
def digitVal (c : Char) : ℤ := ((c.toNat + 256 - 48) % 256 : ℕ)

/-- The digit-accumulation loop of Atoi (`d < 0 || d > 9` breaks the scan). -/
def atoiDigits : List Char → ℤ → Bool → ℤ × Bool × List Char
  | [], ret, valid => (ret, valid, [])
  | c :: rest, ret, valid =>
    if digitVal c < 0 ∨ 9 < digitVal c then (ret, valid, c :: rest)
    else atoiDigits rest (ret * 10 + digitVal c) true

/-- The integer-scanning helper `Atoi(buf string) (ret int, valid bool, pos
string)`.  The empty string returns immediately; otherwise leading whitespace is
skipped by an unguarded loop (`none` = the Go panic when it runs off the end),
one optional sign byte is consumed, digits are accumulated and the unconsumed
suffix is returned. -/
def Atoi (buf : String) : Option (ℤ × Bool × String) :=
  match buf.data with
  | [] => some (0, false, "")
  | l =>
    match skipSpace l with
    | none => none
    | some [] => none
    | some (r :: rest) =>
      let tail := if r = '-' ∨ r = '+' then rest else r :: rest
      let v := atoiDigits tail 0 false
      some (if r = '-' then -v.1 else v.1, v.2.1, String.mk v.2.2)

/-- The integer value checkResolution extracts with `i, _, _ := Atoi(...)`.
The `none` case of our Atoi is a Go panic and cannot return a value; it is
mapped to 0 here (the resolution tokens the parser produces never reach it). -/
def atoiValue (s : String) : ℤ :=
  match Atoi s with
  | some v => v.1
  | none => 0

/-- Model of the external `rls.MustNormalize` (the Release Parser's
normalization function, out of scope per the spec): a lower-case fold.  The
claims depend only on it being a pure function of its argument that keeps
distinct plain ASCII letters distinct. -/
def mustNormalize (s : String) : String := String.mk (s.data.map Char.toLower)

/-- Go's `int(p * 10.0)` on a progress value modelled as a rational: truncating
conversion of ten times the value.  Written on the numerator and denominator so
that it evaluates by kernel reduction (`Int.tdiv` truncates toward zero, which
for the nonnegative progress values equals the float conversion). -/
def progressDecile (p : ℚ) : ℤ := (p.num * 10).tdiv (p.den : ℤ)

/-- Digit-string value used by the channel-layout parse model. -/
def digitsVal (l : List Char) : Option ℕ :=
  if l ≠ [] ∧ l.all Char.isDigit then
    some (l.foldl (fun a c => a * 10 + (c.toNat - 48)) 0)
  else none

/-- Split a character list on '.' separators. -/
def splitDotAux : List Char → List Char → List (List Char)
  | [], acc => [acc.reverse]
  | c :: rest, acc =>
    if c = '.' then acc.reverse :: splitDotAux rest []
    else splitDotAux rest (c :: acc)

/-- Model of `strconv.ParseFloat` for the channel tokens the parser emits
(digits with at most one decimal part, e.g. "5.1", "2.0"); any other string
yields 0 exactly as a Go parse error leaves the zero value. -/
def parseChannelsQ (s : String) : ℚ :=
  match splitDotAux s.data [] with
  | [a] =>
    match digitsVal a with
    | some n => mkRat n 1
    | none => 0
  | [a, b] =>
    match digitsVal a, digitsVal b with
    | some n, some m => mkRat (n * 10 ^ b.length + m) (10 ^ b.length)
    | _, _ => 0
  | _ => 0

/-- Parsed-release attribute set (the rls.Release fields this program reads).
Numeric fields are the parser's nonnegative date/series numbers. -/
structure Release where
  artist : String := ""
  title : String := ""
  subtitle : String := ""
  alt : String := ""
  version : String := ""
  year : ℕ := 0
  month : ℕ := 0
  day : ℕ := 0
  series : ℕ := 0
  episode : ℕ := 0
  resolution : String := ""
  source : String := ""
  channels : String := ""
  group : String := ""
  ext : String := ""
  audio : List String := []
  hdr : List String := []
  language : List String := []
  other : List String := []
  cut : List String := []
  edition : List String := []
deriving DecidableEq

/-- The qbittorrent torrent states this program branches on. -/
inductive GoTState where
  | stalledUp
  | uploading
  | stalledDl
  | downloading
  | missingFiles
  | pausedUp
  | pausedDl
  | checkingUp
  | checkingDl
  | checkingResumeData
  | unknown
deriving DecidableEq

/-- Point-in-time torrent snapshot (the qbittorrent.Torrent fields this program
reads); progress is in [0,1] as reported by the client. -/
structure Torrent where
  hash : String := ""
  name : String := ""
  category : String := ""
  savePath : String := ""
  state : GoTState := GoTState.unknown
  progress : ℚ := 0
  completionOn : ℤ := 0
  autoManaged : Bool := false
deriving DecidableEq

/-- The Go zero value of the Torrent struct (`var parent Entry` / the request
entry's torrent field). -/
def zeroTorrent : Torrent := {}

/-- Transient pairing of a torrent snapshot with its parsed release. -/
structure Entry where
  t : Torrent
  r : Release
deriving DecidableEq

/-- Extension score table of checkExtension. -/
def extScore : String → ℤ
  | "mkv" => 90
  | "mp4" => 89
  | "webp" => 88
  | "ts" => 87
  | "wmv" => 86
  | "xvid" => 85
  | "divx" => 84
  | _ => 0

/-- The rank function of checkExtension: unknown or empty extensions fall back
to the "divx" score. -/
def extRank (e : Release) : ℤ :=
  let i := extScore e.ext
  if i = 0 then 84 else i

/-- Language score table of checkLanguage. -/
def langScore : String → ℤ
  | "ENGLiSH" => 20
  | "MULTi" => 19
  | "FRENCH" => 18
  | "SWEDiSH" => 17
  | "SWESUB" => 16
  | "NORWEGiAN" => 15
  | "NORDiCSUBS" => 14
  | "DUBBED" => 13
  | "DANiSH" => 12
  | "HiNDI" => 11
  | "NORDiC" => 10
  | "GERMAN" => 9
  | "SUBBED" => 8
  | "CZECH" => 7
  | "RUSSiAN" => 1
  | _ => 0

/-- Maximum of a score table over a tag list, starting from 0 — the
`for _, v := range ...` accumulation all the list-valued ranks use. -/
def listMaxScore (f : String → ℤ) (l : List String) : ℤ :=
  l.foldl (fun a v => max a (f v)) 0

/-- The rank function of checkLanguage: an empty tag list defaults to the
"ENGLiSH" score; unknown-only nonempty lists stay at 0. -/
def langRank (e : Release) : ℤ :=
  let i := listMaxScore langScore e.language
  if i = 0 then (if e.language = [] then 20 else 0) else i

/-- Replacement/edition score table of checkReplacement. -/
def replScore : String → ℤ
  | "COMPLETE" => 1
  | "REMUX" => 2
  | "FS" => 3
  | "EXTENDED" => 4
  | "REMASTERED" => 5
  | "PROPER" => 6
  | "REPACK" => 7
  | "INTERNAL" => 8
  | _ => 0

/-- The rank function of checkReplacement (no fallback; unknown tags stay 0). -/
def replRank (e : Release) : ℤ := listMaxScore replScore e.other

/-- Audio score table of checkAudio. -/
def audioScore : String → ℤ
  | "FLAC" => 94
  | "LPCM" => 93
  | "DTS-X" => 92
  | "DTS-HD.HRA" => 91
  | "DDPA" => 90
  | "TrueHD" => 89
  | "DTS-HD.MA" => 88
  | "DTS-MA" => 87
  | "DTS-HD.HR" => 86
  | "Atmos" => 85
  | "DTS-HD" => 84
  | "DDP" => 83
  | "DTS" => 82
  | "DD" => 81
  | "OPUS" => 80
  | "AAC" => 79
  | "DUAL.AUDIO" => 70
  | _ => 0

/-- The rank function of checkAudio: empty or unknown-only lists fall back to
the "DUAL.AUDIO" score. -/
def audioRank (e : Release) : ℤ :=
  let i := listMaxScore audioScore e.audio
  if i = 0 then 70 else i

/-- Source score table of checkSource. -/
def sourceScore : String → ℤ
  | "WEB-DL" => 90
  | "UHD.BluRay" => 89
  | "BluRay" => 88
  | "WEB" => 87
  | "WEBRiP" => 86
  | "BDRiP" => 85
  | "HDRiP" => 84
  | "HDTV" => 83
  | "DVDRiP" => 82
  | "HDTC" => 81
  | "HDTS" => 80
  | "TC" => 79
  | "VHSRiP" => 78
  | "WORKPRiNT" => 77
  | "TS" => 76
  | "HDCAM" => 75
  | "CAM" => 74
  | _ => 0

/-- The rank function of checkSource: unknown or empty sources fall back to the
"TS" score. -/
def sourceRank (e : Release) : ℤ :=
  let i := sourceScore e.source
  if i = 0 then 76 else i

/-- The rank function of checkChannels: ten times the parsed channel string
("5.1" ranks 51), an unparsable or empty string parses to 0 and defaults to
2.0 channels. -/
def channelsRank (e : Release) : ℤ :=
  let q := parseChannelsQ e.channels
  let q := if q = 0 then mkRat 2 1 else q
  (q.num * 10).tdiv (q.den : ℤ)

/-- HDR score table of checkHDR. -/
def hdrScore : String → ℤ
  | "DoVi" => 90
  | "DV" => 90
  | "HDR10+" => 89
  | "HDR10" => 88
  | "HDR+" => 87
  | "HDR" => 86
  | "HLG" => 85
  | "SDR" => 84
  | _ => 0

/-- The rank function of checkHDR: empty or unknown-only lists fall back to the
"SDR" score. -/
def hdrRank (e : Release) : ℤ :=
  let i := listMaxScore hdrScore e.hdr
  if i = 0 then 84 else i

/-- The rank function of checkResolution: the Atoi-parsed numeric height;
unparsable (value 0) defaults to 480. -/
def resolutionRank (e : Release) : ℤ :=
  let i := atoiValue e.resolution
  if i = 0 then 480 else i

/-- compareResults: nil when the ranks tie, otherwise the higher-ranked entry
(the child torrent on `childv > requestrlsv`, else the request). -/
def compareResults (requestrls child : Entry) (f : Release → ℤ) : Option Entry :=
  if f requestrls.r < f child.r then some child
  else if f child.r < f requestrls.r then some requestrls
  else none

/-- checkExtension. -/
def checkExtension (requestrls child : Entry) : Option Entry :=
  compareResults requestrls child extRank

/-- checkLanguage. -/
def checkLanguage (requestrls child : Entry) : Option Entry :=
  compareResults requestrls child langRank

/-- checkReplacement: abstains unless the two group tokens normalize equal. -/
def checkReplacement (requestrls child : Entry) : Option Entry :=
  if mustNormalize child.r.group ≠ mustNormalize requestrls.r.group then none
  else compareResults requestrls child replRank

/-- checkAudio. -/
def checkAudio (requestrls child : Entry) : Option Entry :=
  compareResults requestrls child audioRank

/-- checkSource: abstains when the source tokens are equal. -/
def checkSource (requestrls child : Entry) : Option Entry :=
  if child.r.source = requestrls.r.source then none
  else compareResults requestrls child sourceRank

/-- checkChannels: abstains when the channel strings are equal. -/
def checkChannels (requestrls child : Entry) : Option Entry :=
  if child.r.channels = requestrls.r.channels then none
  else compareResults requestrls child channelsRank

/-- checkHDR. -/
def checkHDR (requestrls child : Entry) : Option Entry :=
  compareResults requestrls child hdrRank

/-- checkResolution: abstains when the resolution tokens are equal. -/
def checkResolution (requestrls child : Entry) : Option Entry :=
  if child.r.resolution = requestrls.r.resolution then none
  else compareResults requestrls child resolutionRank

/-- The fixed comparator slice handleUpgrade and handleClean iterate after the
resolution step: HDR, channels, source, audio, extension, language,
replacement. -/
def upgradeChecks : List (Entry → Entry → Option Entry) :=
  [checkHDR, checkChannels, checkSource, checkAudio, checkExtension,
   checkLanguage, checkReplacement]

/-- handleUpgrade's inner comparator loop from index `i`: the first comparator
whose winner exists and is not the request entry's torrent yields code `202+i`
and that winner; a winner equal to the request torrent does not stop the
walk. -/
def walkFrom (requestrls child : Entry) : ℤ → List (Entry → Entry → Option Entry) → Option (ℤ × Entry)
  | _, [] => none
  | i, f :: fs =>
    match f requestrls child with
    | some res =>
      if res.t = requestrls.t then walkFrom requestrls child (i + 1) fs
      else some (202 + i, res)
    | none => walkFrom requestrls child (i + 1) fs

/-- handleUpgrade's resolution branch: a resolution winner other than the
request torrent stops the scan with code 201, but only if checkSource abstains
or also favors an entry other than the request (`src == nil || src.t !=
requestrls.t`); otherwise the body falls through to the inner walk. -/
def resolutionGate (requestrls child : Entry) : Option Entry :=
  match checkResolution requestrls child with
  | none => none
  | some res =>
    if res.t = requestrls.t then none
    else
      match checkSource requestrls child with
      | none => some res
      | some src => if src.t = requestrls.t then none else some res

/-- The classification loop of handleUpgrade over a canonical-key bucket: a
single pass with state (code, parent).  An exact duplicate (release compare 0)
tracks the best-progress duplicate and code `240 + decile`, breaking at 250; an
accepted resolution win breaks with 201; an inner-walk win only breaks the
inner loop, so the outer scan continues with the updated code and parent. -/
def upgradeLoop (parse : String → Release) (reqE : Entry) : List Torrent → ℤ → Entry → ℤ × Entry
  | [], code, parent => (code, parent)
  | tor :: rest, code, parent =>
    let child : Entry := ⟨tor, parse tor.name⟩
    if reqE.r = child.r then
      if child.t.progress < parent.t.progress then
        upgradeLoop parse reqE rest (240 + progressDecile parent.t.progress) parent
      else
        if 250 ≤ 240 + progressDecile child.t.progress then (250, child)
        else upgradeLoop parse reqE rest (240 + progressDecile child.t.progress) child
    else
      match resolutionGate reqE child with
      | some res => (201, res)
      | none =>
        match walkFrom reqE child 0 upgradeChecks with
        | some cr => upgradeLoop parse reqE rest cr.1 cr.2
        | none => upgradeLoop parse reqE rest code parent

/-- The classification verdict handleUpgrade writes from the final code. -/
inductive UpgradeResponse where
  | unique
  | cross (code : ℤ)
  | notUpgrade (code : ℤ) (parentName : String)
  | upgrade
deriving DecidableEq

/-- The response mapping of handleUpgrade: 240..250 is the cross (exact
duplicate) submission, 201..239 the not-an-upgrade submission naming the
winning parent, anything else the upgrade submission (HTTP 200). -/
def upgradeResponse (res : ℤ × Entry) : UpgradeResponse :=
  if 240 ≤ res.1 ∧ res.1 ≤ 250 then UpgradeResponse.cross res.1
  else if 200 < res.1 ∧ res.1 < 240 then UpgradeResponse.notUpgrade res.1 res.2.t.name
  else UpgradeResponse.upgrade

/-- handleUpgrade's classification of a candidate name against its bucket: the
request entry pairs the parsed name with the zero torrent, the initial parent
is the zero entry and the initial code 0. -/
def classifyBucket (parse : String → Release) (name : String) (v : List Torrent) : ℤ × Entry :=
  upgradeLoop parse ⟨zeroTorrent, parse name⟩ v 0 ⟨zeroTorrent, {}⟩

/-- Zero-padded decimal rendering of Go's `%0*d` for the nonnegative parser
numbers. -/
def padNum (w : ℕ) (n : ℕ) : String :=
  String.mk (List.replicate (w - (toString n).length) '0') ++ toString n

/-- getReleaseTitle: the canonical grouping key — normalized artist, title,
subtitle, alt and version, the zero-padded year/month/day/series/episode, and
the normalized cut and edition tags. -/
def getReleaseTitle (r : Release) : String :=
  mustNormalize r.artist ++ mustNormalize r.title ++ mustNormalize r.subtitle ++
  mustNormalize r.alt ++ mustNormalize r.version ++
  padNum 4 r.year ++ padNum 2 r.month ++ padNum 2 r.day ++
  padNum 2 r.series ++ padNum 3 r.episode ++
  String.join (r.cut.map mustNormalize) ++ String.join (r.edition.map mustNormalize)

/-- getFormattedTitle: key of a raw name (the title cache is pure
memoization of the parser, modelled by the parse function itself). -/
def getFormattedTitle (parse : String → Release) (title : String) : String :=
  getReleaseTitle (parse title)

/-- The full handleUpgrade decision: bucket lookup by canonical key, `unique`
when the key is absent, otherwise the classification loop's response. -/
def handleUpgrade (parse : String → Release) (buckets : String → Option (List Torrent))
    (name : String) : UpgradeResponse :=
  match buckets (getFormattedTitle parse name) with
  | none => UpgradeResponse.unique
  | some v => upgradeResponse (classifyBucket parse name v)

/-- `parentMap[k]++` on a tally modelled as a function. -/
def bump (tally : String → ℕ) (k : String) : String → ℕ :=
  fun s => if s = k then tally s + 1 else tally s

/-- `map[string]int{k: 1}` — the reset tally. -/
def singleVote (k : String) : String → ℕ :=
  fun s => if s = k then 1 else 0

/-- handleClean's inner comparator loop: the first comparator whose winner
exists and whose torrent hash differs from the current parent's hash; a winner
with the parent's own hash does not stop the walk. -/
def cleanWalkFrom (parent child : Entry) : List (Entry → Entry → Option Entry) → Option Entry
  | [] => none
  | f :: fs =>
    match f parent child with
    | some res =>
      if res.t.hash = parent.t.hash then cleanWalkFrom parent child fs
      else some res
    | none => cleanWalkFrom parent child fs

/-- handleClean's inner walk over the fixed comparator slice. -/
def cleanWalk (parent child : Entry) : Option Entry :=
  cleanWalkFrom parent child upgradeChecks

/-- One iteration of handleClean's parent-election scan: an exact duplicate of
the parent bumps that torrent name's vote; otherwise a resolution winner with
source abstaining — or with source agreeing by hash — replaces the parent and
resets the tally; otherwise the inner walk's winner (child side only, by hash)
replaces and resets; a full tie bumps the member's own name. -/
def cleanStep (parse : String → Release) (st : Entry × (String → ℕ)) (tor : Torrent) :
    Entry × (String → ℕ) :=
  let parent := st.1
  let tally := st.2
  let child : Entry := ⟨tor, parse tor.name⟩
  if parent.r = child.r then (parent, bump tally child.t.name)
  else
    match checkResolution parent child with
    | some res =>
      match checkSource parent child with
      | none => (res, singleVote res.t.name)
      | some src =>
        if src.t.hash = res.t.hash then (src, singleVote src.t.name)
        else
          match cleanWalk parent child with
          | some res2 => (res2, singleVote res2.t.name)
          | none => (parent, bump tally child.t.name)
    | none =>
      match cleanWalk parent child with
      | some res2 => (res2, singleVote res2.t.name)
      | none => (parent, bump tally child.t.name)

/-- handleClean's parent-election scan of one bucket: parent seeded from the
first member, tally from empty, then one cleanStep per member — including the
first member itself (`for _, t := range v`). -/
def cleanScan (parse : String → Release) : List Torrent → Entry × (String → ℕ)
  | [] => (⟨zeroTorrent, {}⟩, fun _ => 0)
  | v0 :: rest =>
    (v0 :: rest).foldl (cleanStep parse) (⟨v0, parse v0.name⟩, fun _ => 0)

/-- handleClean's per-child group collection: scan the bucket for members whose
release compares equal to the child's; any member not fully downloaded
(completion epoch < 1) or complete for less than 1209600 seconds aborts the
group (`bContinue`/break), otherwise all group hashes are collected. -/
def collectGroup (parse : String → Release) (childrls : Release) (now : ℤ) :
    List Torrent → Option (List String)
  | [] => some []
  | s :: rest =>
    if parse s.name = childrls then
      if s.completionOn < 1 ∨ now - s.completionOn < 1209600 then none
      else (collectGroup parse childrls now rest).map (fun l => s.hash :: l)
    else collectGroup parse childrls now rest

/-- handleClean's removal sweep of one bucket given the elected parent release:
every member whose release differs from the parent's contributes its whole
duplicate-title group, but only when the group scan did not abort. -/
def removalHashes (parse : String → Release) (now : ℤ) (parentrls : Release)
    (v : List Torrent) : List String :=
  v.flatMap fun child =>
    if parse child.name = parentrls then []
    else
      match collectGroup parse (parse child.name) now v with
      | some hs => hs
      | none => []

/-- Modelled from the spec (claim C5's walk): the first comparator in fixed
order that strictly decides, with ANY strict winner — either side — taken. -/
def specAnyWinner (parent child : Entry) : List (Entry → Entry → Option Entry) → Option Entry
  | [] => none
  | f :: fs =>
    match f parent child with
    | some res => some res
    | none => specAnyWinner parent child fs

/-- Modelled from the spec (claim C5): the fixed-order comparator walk with the
resolution/source gate of section 4.1, any strict winner deciding. -/
def specWalkC5 (parent child : Entry) : Option Entry :=
  match checkResolution parent child with
  | some res =>
    match checkSource parent child with
    | none => some res
    | some src =>
      if src.t.hash = res.t.hash then some res
      else specAnyWinner parent child upgradeChecks
  | none => specAnyWinner parent child upgradeChecks

/-- Modelled from the spec (claim C5's scan step): exact duplicate of the
parent increments that title's vote; otherwise any strict winner of the walk
replaces the parent and resets the tally to a single vote for that winner; a
full tie counts a vote for the member's own title. -/
def claimStepC5 (parse : String → Release) (st : Entry × (String → ℕ)) (tor : Torrent) :
    Entry × (String → ℕ) :=
  let child : Entry := ⟨tor, parse tor.name⟩
  if st.1.r = child.r then (st.1, bump st.2 child.t.name)
  else
    match specWalkC5 st.1 child with
    | some w => (w, singleVote w.t.name)
    | none => (st.1, bump st.2 child.t.name)

/-- Modelled from the spec (claim C5): parent seeded to the first bucket
member, empty tally, and the scan running over the REMAINING members only. -/
def claimScanC5 (parse : String → Release) : List Torrent → Entry × (String → ℕ)
  | [] => (⟨zeroTorrent, {}⟩, fun _ => 0)
  | v0 :: rest => rest.foldl (claimStepC5 parse) (⟨v0, parse v0.name⟩, fun _ => 0)

/-- The gated resolution comparator of the amended C5: the resolution winner
(either side) decides when source abstains; when source decides the same hash,
the source entry decides; otherwise resolution abstains. -/
def gatedResolution (parent child : Entry) : Option Entry :=
  match checkResolution parent child with
  | some res =>
    match checkSource parent child with
    | none => some res
    | some src => if src.t.hash = res.t.hash then some src else none
  | none => none

/-- Hash-gating of a later comparator in the amended C5: only a winner whose
torrent hash differs from the current parent's decides. -/
def hashGated (f : Entry → Entry → Option Entry) (parent child : Entry) : Option Entry :=
  match f parent child with
  | some res => if res.t.hash = parent.t.hash then none else some res
  | none => none

/-- The amended C5 walk: first decision among the gated resolution comparator
followed by the hash-gated later comparators in fixed order. -/
def amendedWalkC5 (parent child : Entry) : Option Entry :=
  (gatedResolution :: upgradeChecks.map hashGated).findSome? (fun g => g parent child)

/-- The amended C5 scan step: exact duplicate bumps the member title's vote;
an accepted (gated) walk winner replaces the parent and resets the tally; a
full tie bumps the member's own title. -/
def amendedStepC5 (parse : String → Release) (st : Entry × (String → ℕ)) (tor : Torrent) :
    Entry × (String → ℕ) :=
  let child : Entry := ⟨tor, parse tor.name⟩
  if st.1.r = child.r then (st.1, bump st.2 child.t.name)
  else
    match amendedWalkC5 st.1 child with
    | some w => (w, singleVote w.t.name)
    | none => (st.1, bump st.2 child.t.name)

/-- The amended C5 scan: parent seeded to the first member whose title starts
with one self-vote (the seed is scanned as an exact duplicate of itself), then
one step per remaining member. -/
def amendedScanC5 (parse : String → Release) : List Torrent → Entry × (String → ℕ)
  | [] => (⟨zeroTorrent, {}⟩, fun _ => 0)
  | v0 :: rest => rest.foldl (amendedStepC5 parse) (⟨v0, parse v0.name⟩, singleVote v0.name)

/-- The client operations the convergence loop performs, as recorded effects. -/
inductive CrossAction where
  | announce
  | recheck
  | resume
  | delete
deriving DecidableEq

/-- Outcome of one convergence-loop iteration: success, a retryable numbered
error, or an unrecoverable numbered error, each with the client actions the
iteration performed. -/
inductive StepResult where
  | ok (acts : List CrossAction)
  | retryable (code : ℕ) (acts : List CrossAction)
  | unrecoverable (code : ℕ) (acts : List CrossAction)
deriving DecidableEq

/-- Prefix already-performed actions onto an outcome. -/
def StepResult.withActs (pre : List CrossAction) : StepResult → StepResult
  | StepResult.ok a => StepResult.ok (pre ++ a)
  | StepResult.retryable c a => StepResult.retryable c (pre ++ a)
  | StepResult.unrecoverable c a => StepResult.unrecoverable c (pre ++ a)

/-- What one convergence-loop iteration observes from the external client:
the getTorrent result, the getFiles answer for the new hash (per-file
progress), whether resume and delete succeed, and — as an oracle — the outcome
of the managed-replacement sub-sequence (resubmission, renames, relocation,
recheck, resume, re-announce) that the claims do not touch. -/
structure CrossEnv where
  torrent : Option Torrent
  files : Option (List ℚ)
  resumeOk : Bool
  deleteOk : Bool
  replaceOutcome : StepResult
deriving DecidableEq

/-- One iteration of handleCross's convergence loop body: branch on the live
state.  Seeding or downloading states re-announce and succeed; missing files
recheck and retry (469); pausedUp resumes and retries (467/468); pausedDl below
the 0.8 completeness floor is UNRECOVERABLE (466) before any file inspection;
pausedDl at or above the floor inspects files — no damage resumes, announces
and succeeds (464 when resume fails), damage deletes the new entry (463 on
delete failure) and runs the managed replacement; still-checking states return
the retryable 412; any other state the retryable 410. -/
def crossStep (env : CrossEnv) : StepResult :=
  match env.torrent with
  | none => StepResult.retryable 423 []
  | some t =>
    match t.state with
    | GoTState.stalledUp => StepResult.ok [CrossAction.announce]
    | GoTState.uploading => StepResult.ok [CrossAction.announce]
    | GoTState.stalledDl => StepResult.ok [CrossAction.announce]
    | GoTState.downloading => StepResult.ok [CrossAction.announce]
    | GoTState.missingFiles => StepResult.retryable 469 [CrossAction.recheck]
    | GoTState.pausedUp =>
      if env.resumeOk then StepResult.retryable 467 [CrossAction.resume]
      else StepResult.retryable 468 [CrossAction.resume]
    | GoTState.pausedDl =>
      if t.progress < mkRat 4 5 then StepResult.unrecoverable 466 []
      else
        match env.files with
        | none => StepResult.retryable 465 []
        | some fs =>
          if fs.all (fun p => p = 1) then
            if env.resumeOk then StepResult.ok [CrossAction.resume, CrossAction.announce]
            else StepResult.retryable 464 [CrossAction.resume]
          else
            if env.deleteOk then StepResult.withActs [CrossAction.delete] env.replaceOutcome
            else StepResult.retryable 463 [CrossAction.delete]
    | GoTState.checkingUp => StepResult.retryable 412 []
    | GoTState.checkingDl => StepResult.retryable 412 []
    | GoTState.checkingResumeData => StepResult.retryable 412 []
    | GoTState.unknown => StepResult.retryable 410 []

/-- Terminal outcome of a retry.Do run. -/
inductive RunResult where
  | succeeded
  | failed (code : ℕ) (unrec : Bool)
deriving DecidableEq

/-- retry.Do of retry-go: a budget of total calls; success returns at once, an
unrecoverable error aborts at once, a retryable error consumes one attempt and
the loop continues while budget remains.  Returns the outcome, the number of
calls made and the concatenated action log. -/
def retryDo (steps : ℕ → StepResult) : ℕ → ℕ → RunResult × ℕ × List CrossAction
  | 0, _ => (RunResult.failed 0 false, 0, [])
  | b + 1, i =>
    match steps i with
    | StepResult.ok a => (RunResult.succeeded, 1, a)
    | StepResult.unrecoverable c a => (RunResult.failed c true, 1, a)
    | StepResult.retryable c a =>
      match b with
      | 0 => (RunResult.failed c false, 1, a)
      | b' + 1 =>
        let r := retryDo steps (b' + 1) (i + 1)
        (r.1, r.2.1 + 1, a ++ r.2.2)

/-- The convergence loop of handleCross: retry.Do over the iteration body with
the given attempt budget (47 in the code), iteration i observing environment
`envs i`. -/
def crossRun (envs : ℕ → CrossEnv) (attempts : ℕ) : RunResult × ℕ × List CrossAction :=
  retryDo (fun i => crossStep (envs i)) attempts 0

/-- handleCross after the loop: success answers 200; failure deletes the new
entry and surfaces the numeric error prefix when it is a valid ≥400 code, else
the generic 415. -/
def crossFinal (envs : ℕ → CrossEnv) (attempts : ℕ) : ℕ × List CrossAction :=
  let r := crossRun envs attempts
  match r.1 with
  | RunResult.succeeded => (200, r.2.2)
  | RunResult.failed c _ => (if 400 ≤ c then c else 415, r.2.2 ++ [CrossAction.delete])

/-- Whether an iteration observes the new torrent in a still-checking state. -/
def isCheckingEnv (env : CrossEnv) : Bool :=
  match env.torrent with
  | some t =>
    t.state == GoTState.checkingUp || t.state == GoTState.checkingDl ||
    t.state == GoTState.checkingResumeData
  | none => false

/-- Modelled from the spec (claim C7): a convergence loop in which an iteration
observing a still-checking state does NOT consume the attempt budget; the extra
fuel argument only makes the definition total and bounds the number of polls. -/
def specRetryC7 (envs : ℕ → CrossEnv) : ℕ → ℕ → ℕ → RunResult
  | 0, _, _ => RunResult.failed 999 false
  | fuel + 1, budget, i =>
    match crossStep (envs i) with
    | StepResult.ok _ => RunResult.succeeded
    | StepResult.unrecoverable c _ => RunResult.failed c true
    | StepResult.retryable c _ =>
      if isCheckingEnv (envs i) then specRetryC7 envs fuel budget (i + 1)
      else
        match budget with
        | 0 => RunResult.failed c false
        | 1 => RunResult.failed c false
        | b + 2 => specRetryC7 envs fuel (b + 1) (i + 1)

/-- Client-cache identity (qbittorrent.Config as keyed by getClient). -/
structure QbConfig where
  host : String
  user : String
  password : String
deriving DecidableEq

/-- A client handle; it is determined by the config it was created from. -/
structure QbClient where
  cfg : QbConfig
deriving DecidableEq

/-- The request fields getClient reads and writes. -/
structure UpgradeReq where
  name : String := ""
  user : String := ""
  password : String := ""
  host : String := ""
  hash : String := ""
  client : Option QbClient := none
deriving DecidableEq

/-- The cache key getClient builds from the request identity. -/
def reqConfig (r : UpgradeReq) : QbConfig := ⟨r.host, r.user, r.password⟩

/-- getClient: serve a cached client when present; otherwise create a fresh
client, log in (`login` is the external Login outcome), and only on success
store it in the cache and set the request's client field.  A login failure
returns the error with the cache and request untouched.  The ttlcache is
modelled as a map from config to client; its TTL plays no role here. -/
def getClient (login : QbClient → Option String) (cache : QbConfig → Option QbClient)
    (req : UpgradeReq) : Option String × (QbConfig → Option QbClient) × UpgradeReq :=
  let s := reqConfig req
  match cache s with
  | some c => (none, cache, { req with client := some c })
  | none =>
    let c : QbClient := ⟨s⟩
    match login c with
    | some e => (some e, cache, req)
    | none => (none, fun k => if k = s then some c else cache k, { req with client := some c })

/-- Running maximum of the progress values of a bucket. -/
def maxProgress : List Torrent → ℚ
  | [] => 0
  | t :: ts => max t.progress (maxProgress ts)

/-- Concrete inputs for claim C1: a candidate whose bucket holds an exact
duplicate (half complete) followed by a member that wins the HDR comparator. -/
def relA1 : Release := { title := "t" }

/-- The HDR-superior sibling release of the C1 example. -/
def relB1 : Release := { title := "t", hdr := ["DV"] }

/-- Parse table of the C1 example. -/
def parse1 : String → Release := fun s => if s = "N2" then relB1 else relA1

/-- The exact-duplicate bucket member of the C1 example, half complete. -/
def t1c : Torrent := { hash := "h1", name := "N1", progress := mkRat 1 2 }

/-- The HDR-winning bucket member of the C1 example. -/
def t2c : Torrent := { hash := "h2", name := "N2" }

/-- All-identical parse table for the C1 witness. -/
def parseW1 : String → Release := fun _ => relA1

/-- C1-witness bucket member at progress 1/2. -/
def w1a : Torrent := { hash := "w1", name := "W1", progress := mkRat 1 2 }

/-- C1-witness bucket member at progress 0. -/
def w1b : Torrent := { hash := "w2", name := "W2" }

/-- The 1080p/BluRay request entry of the spec's source-gate scenario. -/
def entryReq2 : Entry := ⟨zeroTorrent, { resolution := "1080p", source := "BluRay" }⟩

/-- The 2160p/CAM bucket member of the spec's source-gate scenario. -/
def entryChild2 : Entry := ⟨{ hash := "h2", name := "M" }, { resolution := "2160p", source := "CAM" }⟩

/-- Concrete releases for claim C5: the seed wins HDR against its sibling and
every other comparator ties. -/
def relA5 : Release := { title := "x", hdr := ["DV"] }

/-- The HDR-inferior sibling of the C5 example. -/
def relB5 : Release := { title := "x" }

/-- Parse table of the C5 example. -/
def parse5 : String → Release := fun s => if s = "TA" then relA5 else relB5

/-- C5 seed torrent. -/
def ta5 : Torrent := { hash := "a", name := "TA" }

/-- C5 remaining torrent. -/
def tb5 : Torrent := { hash := "b", name := "TB" }

/-- An environment observing the new torrent still checking. -/
def envCheck : CrossEnv :=
  { torrent := some { state := GoTState.checkingDl }, files := none,
    resumeOk := false, deleteOk := false, replaceOutcome := StepResult.ok [] }

/-- An environment observing the new torrent seeding (immediate success). -/
def envSeed : CrossEnv :=
  { torrent := some { state := GoTState.stalledUp }, files := none,
    resumeOk := false, deleteOk := false, replaceOutcome := StepResult.ok [] }

/-- 47 checking polls followed by a seeding observation. -/
def envs47 : ℕ → CrossEnv := fun i => if i < 47 then envCheck else envSeed

/-- Constant still-checking environment for the C7 witness. -/
def envsCheckConst : ℕ → CrossEnv := fun _ => envCheck

/-- The paused-download torrent of the C6 witness, at progress 3/4 (below the
0.8 completeness floor). -/
def pdTorrent : Torrent := { state := GoTState.pausedDl, progress := mkRat 3 4 }

/-- The C6 witness environment. -/
def envPd : CrossEnv :=
  { torrent := some pdTorrent, files := none, resumeOk := false, deleteOk := false,
    replaceOutcome := StepResult.ok [] }

/-- Releases agreeing on every key field of claim C8 but with distinct
artists. -/
def relA8 : Release := { artist := "a", title := "t" }

/-- The distinct-artist sibling of the C8 counterexample. -/
def relB8 : Release := { artist := "b", title := "t" }

/-- C8-witness release: same artist and key fields as its sibling, different
resolution and audio. -/
def relW8a : Release := { artist := "A", title := "T", resolution := "1080p", audio := ["FLAC"] }

/-- C8-witness sibling differing only in non-key fields. -/
def relW8b : Release := { artist := "A", title := "T", resolution := "2160p", source := "CAM" }

/-- A login oracle that always fails, for the C10 witness. -/
def loginFail : QbClient → Option String := fun _ => some "bad credentials"

/-- The empty client cache, for the C10 witness. -/
def emptyCache : QbConfig → Option QbClient := fun _ => none

/-- The C10 witness request. -/
def reqW10 : UpgradeReq := { host := "h", user := "u", password := "p" }

/-- C4-witness bucket: a pair of same-title torrents, one of them complete for
less than the grace period. -/
def v4 : List Torrent :=
  [{ hash := "x1", name := "G", completionOn := 100 },
   { hash := "x2", name := "G", completionOn := 9000000 }]

/-- C4-witness parse table (every name parses to the same release). -/
def parse4 : String → Release := fun _ => { title := "g" }

/-- C4-witness elected parent release, distinct from the group's. -/
def parent4 : Release := { title := "other" }

theorem compareResults_comm (a b : Entry) (f : Release → ℤ) :
    compareResults a b f = compareResults b a f := by
  unfold compareResults
  rcases lt_trichotomy (f a.r) (f b.r) with h | h | h
  · rw [if_pos h, if_pos h, if_neg (asymm h)]
  · rw [if_neg (by omega), if_neg (by omega), if_neg (by omega), if_neg (by omega)]
  · rw [if_neg (asymm h), if_pos h, if_pos h]

/-- C3: every comparator of the chain (resolution, HDR, channels, source,
audio, extension, language, replacement) is antisymmetric — swapping its two
inputs yields the very same result: the identical winning entry when it
decides, and nil on both calls when it abstains. -/
theorem C3_comparator_antisymmetry (a b : Entry) :
    checkResolution a b = checkResolution b a ∧
    checkHDR a b = checkHDR b a ∧
    checkChannels a b = checkChannels b a ∧
    checkSource a b = checkSource b a ∧
    checkAudio a b = checkAudio b a ∧
    checkExtension a b = checkExtension b a ∧
    checkLanguage a b = checkLanguage b a ∧
    checkReplacement a b = checkReplacement b a := by
  refine ⟨?_, ?_, ?_, ?_, ?_, ?_, ?_, ?_⟩
  · unfold checkResolution
    by_cases h : b.r.resolution = a.r.resolution
    · rw [if_pos h, if_pos h.symm]
    · rw [if_neg h, if_neg (fun hh => h hh.symm), compareResults_comm]
  · exact compareResults_comm a b hdrRank
  · unfold checkChannels
    by_cases h : b.r.channels = a.r.channels
    · rw [if_pos h, if_pos h.symm]
    · rw [if_neg h, if_neg (fun hh => h hh.symm), compareResults_comm]
  · unfold checkSource
    by_cases h : b.r.source = a.r.source
    · rw [if_pos h, if_pos h.symm]
    · rw [if_neg h, if_neg (fun hh => h hh.symm), compareResults_comm]
  · exact compareResults_comm a b audioRank
  · exact compareResults_comm a b extRank
  · exact compareResults_comm a b langRank
  · unfold checkReplacement
    by_cases h : mustNormalize b.r.group = mustNormalize a.r.group
    · rw [if_neg (by simpa using h), if_neg (by simpa using h.symm), compareResults_comm]
    · rw [if_pos (by simpa using h), if_pos (by simpa using fun hh => h hh.symm)]

/-- C9: evaluation of the embedded Atoi.  The empty string returns
(0, false, "") as the claim states, but a whitespace-only string drives the
unguarded whitespace-skip loop past the end of the buffer — the `none` result,
a Go index-out-of-range panic — refuting the no-panic half of the claim; a
normal numeric prefix is scanned as expected. -/
theorem C9_atoi_eval :
    Atoi "" = some (0, false, "") ∧
    Atoi " " = none ∧
    Atoi " 42x" = some (42, true, "x") ∧
    Atoi "-7" = some (-7, true, "") := by decide

/-- C10: client acquisition is atomic on error — with no cached client for the
request identity and a failing login, getClient returns that error, stores
nothing in the cache (the returned cache is the old one), and leaves the
request, in particular its client field, untouched. -/
theorem C10_getClient_atomic_on_error (login : QbClient → Option String)
    (cache : QbConfig → Option QbClient) (req : UpgradeReq) (e : String)
    (hcache : cache (reqConfig req) = none)
    (hlogin : login ⟨reqConfig req⟩ = some e) :
    getClient login cache req = (some e, cache, req) := by
  simp only [getClient, hcache, hlogin]

theorem C10_witness :
    getClient loginFail emptyCache reqW10 = (some "bad credentials", emptyCache, reqW10) :=
  C10_getClient_atomic_on_error loginFail emptyCache reqW10 "bad credentials" rfl rfl

/-- C8 counterexample: two releases agreeing on every field the claim lists
(title, subtitle, alt, version, year, month, day, series, episode, cut,
edition) but differing in artist produce different canonical keys, refuting
"no other release attribute affects the key". -/
theorem C8_counterexample :
    relA8.title = relB8.title ∧ relA8.subtitle = relB8.subtitle ∧
    relA8.alt = relB8.alt ∧ relA8.version = relB8.version ∧
    relA8.year = relB8.year ∧ relA8.month = relB8.month ∧ relA8.day = relB8.day ∧
    relA8.series = relB8.series ∧ relA8.episode = relB8.episode ∧
    relA8.cut = relB8.cut ∧ relA8.edition = relB8.edition ∧
    getReleaseTitle relA8 ≠ getReleaseTitle relB8 := by decide

/-- C8 amended: the canonical key is derived from exactly the normalized
artist, title, subtitle, alt, version, year, month, day, series, episode, cut
and edition fields — releases agreeing on these twelve fields get equal keys,
whatever their other attributes. -/
theorem C8_amended_key_fields (r1 r2 : Release)
    (ha : r1.artist = r2.artist) (ht : r1.title = r2.title)
    (hs : r1.subtitle = r2.subtitle) (hal : r1.alt = r2.alt)
    (hv : r1.version = r2.version) (hy : r1.year = r2.year)
    (hm : r1.month = r2.month) (hd : r1.day = r2.day)
    (hse : r1.series = r2.series) (he : r1.episode = r2.episode)
    (hc : r1.cut = r2.cut) (hed : r1.edition = r2.edition) :
    getReleaseTitle r1 = getReleaseTitle r2 := by
  unfold getReleaseTitle
  rw [ha, ht, hs, hal, hv, hy, hm, hd, hse, he, hc, hed]

theorem C8_witness : getReleaseTitle relW8a = getReleaseTitle relW8b :=
  C8_amended_key_fields relW8a relW8b rfl rfl rfl rfl rfl rfl rfl rfl rfl rfl rfl rfl

/-- C2: when a bucket member strictly wins the resolution comparator but the
candidate strictly wins the source comparator, handleUpgrade's resolution
branch does not fire (no code 201) and the loop iteration is decided by the
inner walk over the later comparators (HDR, channels, source, audio,
extension, language, replacement). -/
theorem C2_resolution_source_gate (reqE child : Entry)
    (hres : checkResolution reqE child = some child)
    (hsrc : checkSource reqE child = some reqE) :
    resolutionGate reqE child = none ∧
    ∀ (parse : String → Release) (rest : List Torrent) (code : ℤ) (parent : Entry)
      (tor : Torrent), (⟨tor, parse tor.name⟩ : Entry) = child →
      upgradeLoop parse reqE (tor :: rest) code parent =
        match walkFrom reqE child 0 upgradeChecks with
        | some cr => upgradeLoop parse reqE rest cr.1 cr.2
        | none => upgradeLoop parse reqE rest code parent := by
  have hne : reqE.r ≠ child.r := by
    intro h
    rw [checkResolution, if_pos (by rw [h])] at hres
    cases hres
  have hgate : resolutionGate reqE child = none := by
    simp only [resolutionGate, hres, hsrc]
    by_cases h : child.t = reqE.t <;> simp [h]
  refine ⟨hgate, ?_⟩
  intro parse rest code parent tor htor
  have hr : parse tor.name = child.r := by rw [← htor]
  simp only [upgradeLoop]
  rw [htor, hr, if_neg hne, hgate]

theorem C2_witness : resolutionGate entryReq2 entryChild2 = none :=
  (C2_resolution_source_gate entryReq2 entryChild2 (by decide) (by decide)).1

/-- C6: a convergence-loop iteration observing the new torrent paused after a
download check with progress strictly below the 0.8 completeness floor aborts
unrecoverably with the distinct code 466 after exactly one call, whatever the
remaining budget; the iteration performs no recheck and no resume, and the
post-loop handler deletes the new entry and surfaces 466. -/
theorem C6_below_floor_unrecoverable (envs : ℕ → CrossEnv) (t : Torrent) (b : ℕ)
    (ht : (envs 0).torrent = some t) (hs : t.state = GoTState.pausedDl)
    (hp : t.progress < mkRat 4 5) :
    crossRun envs (b + 1) = (RunResult.failed 466 true, 1, []) ∧
    crossFinal envs (b + 1) = (466, [CrossAction.delete]) ∧
    CrossAction.recheck ∉ (crossRun envs (b + 1)).2.2 ∧
    CrossAction.resume ∉ (crossRun envs (b + 1)).2.2 := by
  have hstep : crossStep (envs 0) = StepResult.unrecoverable 466 [] := by
    simp only [crossStep, ht, hs]
    rw [if_pos hp]
  have hrun : crossRun envs (b + 1) = (RunResult.failed 466 true, 1, []) := by
    unfold crossRun
    simp only [retryDo, hstep]
  refine ⟨hrun, ?_, ?_, ?_⟩
  · unfold crossFinal
    rw [hrun]
    norm_num
  · rw [hrun]; simp
  · rw [hrun]; simp

theorem C6_witness :
    crossRun (fun _ => envPd) 47 = (RunResult.failed 466 true, 1, []) ∧
    crossFinal (fun _ => envPd) 47 = (466, [CrossAction.delete]) ∧
    CrossAction.recheck ∉ (crossRun (fun _ => envPd) 47).2.2 ∧
    CrossAction.resume ∉ (crossRun (fun _ => envPd) 47).2.2 :=
  C6_below_floor_unrecoverable (fun _ => envPd) pdTorrent 46 rfl rfl (by decide)

theorem crossStep_of_checking (env : CrossEnv) (h : isCheckingEnv env = true) :
    crossStep env = StepResult.retryable 412 [] := by
  unfold isCheckingEnv at h
  cases henv : env.torrent with
  | none => rw [henv] at h; cases h
  | some t =>
    rw [henv] at h
    have h' : (t.state == GoTState.checkingUp || t.state == GoTState.checkingDl ||
        t.state == GoTState.checkingResumeData) = true := h
    simp only [crossStep, henv]
    cases hstate : t.state <;> rw [hstate] at h' <;> simp_all

theorem retryDo_all_checking (envs : ℕ → CrossEnv) :
    ∀ (n : ℕ), 1 ≤ n → ∀ (i : ℕ),
      (∀ j, j < n → isCheckingEnv (envs (i + j)) = true) →
      retryDo (fun k => crossStep (envs k)) n i = (RunResult.failed 412 false, n, []) := by
  intro n
  induction n with
  | zero => omega
  | succ m ih =>
    intro _ i hc
    have h0 : crossStep (envs i) = StepResult.retryable 412 [] := by
      apply crossStep_of_checking
      simpa using hc 0 (by omega)
    cases m with
    | zero => simp [retryDo, h0]
    | succ m' =>
      have hrec := ih (by omega) (i + 1) (fun j hj => by
        have := hc (j + 1) (by omega)
        simpa [show i + (j + 1) = i + 1 + j by omega] using this)
      simp [retryDo, h0, hrec]

/-- C7 amended: a still-checking observation returns the retryable error 412
and consumes the attempt budget exactly like any other retryable state — n
consecutive checking polls exhaust an n-attempt budget (so 47 of them exhaust
the loop's 47 attempts). -/
theorem C7_amended_checking_consumes (envs : ℕ → CrossEnv) (n : ℕ) (hn : 1 ≤ n)
    (hc : ∀ j, j < n → isCheckingEnv (envs j) = true) :
    crossRun envs n = (RunResult.failed 412 false, n, []) := by
  have h := retryDo_all_checking envs n hn 0 (fun j hj => by simpa using hc j hj)
  simpa [crossRun] using h

theorem C7_amended_witness :
    crossRun envsCheckConst 47 = (RunResult.failed 412 false, 47, []) :=
  C7_amended_checking_consumes envsCheckConst 47 (by omega) (fun j _ => rfl)

/-- C7 counterexample: against a script of 47 still-checking polls followed by
a seeding observation, the code's 47-attempt loop exhausts its budget on the
checking polls and fails with 412 after 47 calls, while the spec-modelled loop
— whose checking iterations do not consume the budget — reaches the seeding
observation and succeeds. -/
theorem C7_counterexample :
    crossRun envs47 47 = (RunResult.failed 412 false, 47, []) ∧
    specRetryC7 envs47 100 47 0 = RunResult.succeeded := by decide
theorem progressDecile_eq_floor (p : ℚ) (hp : 0 ≤ p) :
    progressDecile p = ⌊(10 : ℚ) * p⌋ := by
  have hn : 0 ≤ p.num * 10 := by
    have := Rat.num_nonneg.mpr hp
    positivity
  rw [progressDecile, Int.tdiv_eq_ediv hn (Int.natCast_nonneg _)]
  have h10 : (10 : ℚ) * p = ((p.num * 10 : ℤ) : ℚ) / ((p.den : ℕ) : ℚ) := by
    conv_lhs => rw [← Rat.num_div_den p]
    push_cast
    ring
  rw [h10, Rat.floor_intCast_div_natCast]

theorem progressDecile_nonneg (p : ℚ) (hp : 0 ≤ p) : 0 ≤ progressDecile p := by
  rw [progressDecile_eq_floor p hp]
  exact Int.floor_nonneg.mpr (by positivity)

theorem progressDecile_le_ten (p : ℚ) (hp : 0 ≤ p) (hp1 : p ≤ 1) :
    progressDecile p ≤ 10 := by
  rw [progressDecile_eq_floor p hp]
  calc ⌊(10 : ℚ) * p⌋ ≤ ⌊(10 : ℚ)⌋ := Int.floor_le_floor (by nlinarith)
  _ = 10 := by norm_num

theorem progressDecile_eq_one_of_ge (p : ℚ) (hp : 0 ≤ p) (hp1 : p ≤ 1)
    (h : 10 ≤ progressDecile p) : p = 1 := by
  rw [progressDecile_eq_floor p hp] at h
  have h2 : ((10 : ℤ) : ℚ) ≤ (10 : ℚ) * p := Int.le_floor.mp h
  have : (1 : ℚ) ≤ p := by push_cast at h2; nlinarith
  linarith

theorem progressDecile_one : progressDecile 1 = 10 := by decide

theorem maxProgress_nonneg : ∀ v : List Torrent, 0 ≤ maxProgress v
  | [] => le_refl 0
  | _ :: ts => le_trans (maxProgress_nonneg ts) (le_max_right _ _)

theorem maxProgress_le_one (v : List Torrent) (h : ∀ t ∈ v, t.progress ≤ 1) :
    maxProgress v ≤ 1 := by
  induction v with
  | nil => norm_num [maxProgress]
  | cons t ts ih =>
    simp only [maxProgress, max_le_iff]
    exact ⟨h t (by simp), ih fun s hs => h s (by simp [hs])⟩

theorem upgradeLoop_all_dup (parse : String → Release) (reqE : Entry) :
    ∀ (v : List Torrent) (code : ℤ) (parent : Entry),
    (∀ t ∈ v, parse t.name = reqE.r) →
    (∀ t ∈ v, 0 ≤ t.progress ∧ t.progress ≤ 1) →
    0 ≤ parent.t.progress → parent.t.progress ≤ 1 → v ≠ [] →
    (upgradeLoop parse reqE v code parent).2.t.progress
        = max parent.t.progress (maxProgress v) ∧
    (((upgradeLoop parse reqE v code parent).2 = parent ∧
        maxProgress v < parent.t.progress) ∨
      ∃ t ∈ v, (upgradeLoop parse reqE v code parent).2 = ⟨t, parse t.name⟩) ∧
    (upgradeLoop parse reqE v code parent).1
        = 240 + progressDecile (upgradeLoop parse reqE v code parent).2.t.progress := by
  intro v
  induction v with
  | nil => intro _ _ _ _ _ _ hne; exact absurd rfl hne
  | cons tor rest ih =>
    intro code parent hdup hbounds hp0 hp1 _
    have hr : reqE.r = parse tor.name := (hdup tor (by simp)).symm
    obtain ⟨hb0, hb1⟩ := hbounds tor (by simp)
    have hdup' : ∀ t ∈ rest, parse t.name = reqE.r := fun t ht => hdup t (by simp [ht])
    have hbounds' : ∀ t ∈ rest, 0 ≤ t.progress ∧ t.progress ≤ 1 :=
      fun t ht => hbounds t (by simp [ht])
    have hle1 : maxProgress rest ≤ 1 := maxProgress_le_one rest fun t ht => (hbounds' t ht).2
    simp only [upgradeLoop, if_pos hr]
    by_cases hlt : tor.progress < parent.t.progress
    · rw [if_pos hlt]
      cases rest with
      | nil =>
        have hm : maxProgress [tor] = tor.progress := by
          rw [show maxProgress [tor] = max tor.progress 0 from rfl, max_eq_left hb0]
        refine ⟨?_, Or.inl ⟨rfl, ?_⟩, rfl⟩
        · show parent.t.progress = max parent.t.progress (maxProgress [tor])
          rw [hm, max_eq_left hlt.le]
        · rw [hm]; exact hlt
      | cons r0 rs =>
        obtain ⟨ihprog, ihdisj, ihcode⟩ :=
          ih (240 + progressDecile parent.t.progress) parent hdup' hbounds' hp0 hp1
            (by simp)
        refine ⟨?_, ?_, ihcode⟩
        · rw [ihprog]
          conv_rhs => rw [maxProgress, ← max_assoc, max_eq_left hlt.le]
        · rcases ihdisj with ⟨heq, hlt'⟩ | ⟨t, ht, heq⟩
          · refine Or.inl ⟨heq, ?_⟩
            rw [maxProgress]
            exact max_lt hlt hlt'
          · exact Or.inr ⟨t, by simp [ht], heq⟩
    · rw [if_neg hlt]
      push_neg at hlt
      by_cases hbreak : (250 : ℤ) ≤ 240 + progressDecile tor.progress
      · rw [if_pos hbreak]
        have h10 : (10 : ℤ) ≤ progressDecile tor.progress := by omega
        have hone : tor.progress = 1 := progressDecile_eq_one_of_ge _ hb0 hb1 h10
        refine ⟨?_, Or.inr ⟨tor, by simp, rfl⟩, ?_⟩
        · show tor.progress = max parent.t.progress (maxProgress (tor :: rest))
          rw [maxProgress, hone, max_eq_left hle1, max_eq_right hp1]
        · show (250 : ℤ) = 240 + progressDecile tor.progress
          rw [hone, progressDecile_one]
          norm_num
      · rw [if_neg hbreak]
        cases rest with
        | nil =>
          refine ⟨?_, Or.inr ⟨tor, by simp, rfl⟩, rfl⟩
          show tor.progress = max parent.t.progress (maxProgress [tor])
          rw [show maxProgress [tor] = max tor.progress 0 from rfl, max_eq_left hb0,
            max_eq_right hlt]
        | cons r0 rs =>
          obtain ⟨ihprog, ihdisj, ihcode⟩ :=
            ih (240 + progressDecile tor.progress) ⟨tor, parse tor.name⟩ hdup' hbounds'
              hb0 hb1 (by simp)
          refine ⟨?_, ?_, ihcode⟩
          · rw [ihprog]
            show max tor.progress (maxProgress (r0 :: rs))
                = max parent.t.progress (maxProgress (tor :: r0 :: rs))
            conv_rhs => rw [maxProgress]
            rw [max_eq_right (le_trans hlt (le_max_left _ _))]
          · rcases ihdisj with ⟨heq, _⟩ | ⟨t, ht, heq⟩
            · exact Or.inr ⟨tor, by simp, heq⟩
            · exact Or.inr ⟨t, by simp [ht], heq⟩

/-- C1 amended: when every member of the (nonempty) bucket is structurally
identical to the candidate and progress values are in [0,1], the classification
loop references a maximum-progress bucket member and answers the
exact-duplicate code 240 + that member's progress decile (250 exactly when a
fully complete member is reached), and the response is the cross (exact
duplicate) branch.  (With non-identical members present, a comparator win
scanned after the last identical member overrides the duplicate result — see
the counterexample.) -/
theorem C1_amended_all_identical (parse : String → Release) (name : String)
    (v : List Torrent) (hne : v ≠ [])
    (hdup : ∀ t ∈ v, parse t.name = parse name)
    (hbounds : ∀ t ∈ v, 0 ≤ t.progress ∧ t.progress ≤ 1) :
    (∃ t ∈ v, (classifyBucket parse name v).2 = ⟨t, parse t.name⟩) ∧
    (classifyBucket parse name v).2.t.progress = maxProgress v ∧
    (classifyBucket parse name v).1 = 240 + progressDecile (maxProgress v) ∧
    240 ≤ (classifyBucket parse name v).1 ∧ (classifyBucket parse name v).1 ≤ 250 ∧
    upgradeResponse (classifyBucket parse name v) =
      UpgradeResponse.cross (classifyBucket parse name v).1 := by
  obtain ⟨hprog, hdisj, hcode⟩ :=
    upgradeLoop_all_dup parse ⟨zeroTorrent, parse name⟩ v 0 ⟨zeroTorrent, {}⟩
      hdup hbounds (le_refl 0) (by decide) hne
  have hmax0 : max (0 : ℚ) (maxProgress v) = maxProgress v :=
    max_eq_right (maxProgress_nonneg v)
  have hprog' : (classifyBucket parse name v).2.t.progress = maxProgress v := by
    rw [classifyBucket, hprog]
    exact hmax0
  have hmem : ∃ t ∈ v, (classifyBucket parse name v).2 = ⟨t, parse t.name⟩ := by
    rcases hdisj with ⟨_, hlt⟩ | h
    · have h00 : (0 : ℚ) < 0 := lt_of_le_of_lt (maxProgress_nonneg v) hlt
      exact absurd h00 (lt_irrefl 0)
    · exact h
  have hcode' : (classifyBucket parse name v).1 = 240 + progressDecile (maxProgress v) := by
    rw [classifyBucket, hcode, ← classifyBucket, hprog']
  have hm0 : 0 ≤ maxProgress v := maxProgress_nonneg v
  have hm1 : maxProgress v ≤ 1 := maxProgress_le_one v fun t ht => (hbounds t ht).2
  have h240 : 240 ≤ (classifyBucket parse name v).1 := by
    rw [hcode']
    have := progressDecile_nonneg (maxProgress v) hm0
    omega
  have h250 : (classifyBucket parse name v).1 ≤ 250 := by
    rw [hcode']
    have := progressDecile_le_ten (maxProgress v) hm0 hm1
    omega
  refine ⟨hmem, hprog', hcode', h240, h250, ?_⟩
  rw [upgradeResponse, if_pos ⟨h240, h250⟩]

theorem C1_amended_witness :
    (∃ t ∈ [w1a, w1b], (classifyBucket parseW1 "REQ" [w1a, w1b]).2 = ⟨t, parseW1 t.name⟩) ∧
    upgradeResponse (classifyBucket parseW1 "REQ" [w1a, w1b]) =
      UpgradeResponse.cross (classifyBucket parseW1 "REQ" [w1a, w1b]).1 := by
  have h := C1_amended_all_identical parseW1 "REQ" [w1a, w1b] (by decide) (by decide)
    (by decide)
  exact ⟨h.1, h.2.2.2.2.2⟩

/-- C1 counterexample: the bucket holds an exact duplicate of the candidate
(at progress 1/2, scanned first) and then a non-identical member winning the
HDR comparator; the single-pass scan lets the later comparator win override the
exact-duplicate result, answering NotAnUpgrade 202 instead of ExactDuplicate
245 — refuting the claimed precedence "regardless of iteration order". -/
theorem C1_counterexample :
    parse1 "N1" = parse1 "REQ" ∧
    classifyBucket parse1 "REQ" [t1c, t2c] = (202, ⟨t2c, relB1⟩) ∧
    upgradeResponse (classifyBucket parse1 "REQ" [t1c, t2c]) =
      UpgradeResponse.notUpgrade 202 "N2" := by decide

theorem collectGroup_eligible (parse : String → Release) (c : Release) (now : ℤ) :
    ∀ (l : List Torrent) (hs : List String), collectGroup parse c now l = some hs →
      ∀ s ∈ l, parse s.name = c →
        1 ≤ s.completionOn ∧ 1209600 ≤ now - s.completionOn := by
  intro l
  induction l with
  | nil => intro hs _ s hmem; exact absurd hmem (List.not_mem_nil s)
  | cons x rest ih =>
    intro hs hcol s hmem hname
    by_cases hx : parse x.name = c
    · rw [collectGroup, if_pos hx] at hcol
      by_cases hbad : x.completionOn < 1 ∨ now - x.completionOn < 1209600
      · rw [if_pos hbad] at hcol
        exact absurd hcol (by simp)
      · rw [if_neg hbad] at hcol
        push_neg at hbad
        rcases Option.map_eq_some'.mp hcol with ⟨l', hl', _⟩
        rcases List.mem_cons.mp hmem with rfl | hmem'
        · exact hbad
        · exact ih l' hl' s hmem' hname
    · rw [collectGroup, if_neg hx] at hcol
      rcases List.mem_cons.mp hmem with rfl | hmem'
      · exact absurd hname hx
      · exact ih hs hcol s hmem' hname

theorem collectGroup_hash (parse : String → Release) (c : Release) (now : ℤ) :
    ∀ (l : List Torrent) (hs : List String), collectGroup parse c now l = some hs →
      ∀ h ∈ hs, ∃ x ∈ l, x.hash = h ∧ parse x.name = c := by
  intro l
  induction l with
  | nil =>
    intro hs hcol h hmem
    rw [collectGroup] at hcol
    cases hcol
    exact absurd hmem (List.not_mem_nil h)
  | cons x rest ih =>
    intro hs hcol h hmem
    by_cases hx : parse x.name = c
    · rw [collectGroup, if_pos hx] at hcol
      by_cases hbad : x.completionOn < 1 ∨ now - x.completionOn < 1209600
      · rw [if_pos hbad] at hcol
        exact absurd hcol (by simp)
      · rw [if_neg hbad] at hcol
        rcases Option.map_eq_some'.mp hcol with ⟨l', hl', hout⟩
        rw [← hout] at hmem
        rcases List.mem_cons.mp hmem with rfl | hmem'
        · exact ⟨x, by simp, rfl, hx⟩
        · rcases ih l' hl' h hmem' with ⟨y, hy, hyh, hyc⟩
          exact ⟨y, by simp [hy], hyh, hyc⟩
    · rw [collectGroup, if_neg hx] at hcol
      rcases ih hs hcol h hmem with ⟨y, hy, hyh, hyc⟩
      exact ⟨y, by simp [hy], hyh, hyc⟩

/-- C4: the dedup sweep only queues a torrent whose whole duplicate-title group
(the bucket members with release compare 0 to it) is fully downloaded
(completion epoch at least 1) and complete for at least 1209600 seconds at
sweep time; conversely, with distinct hashes, a torrent whose group has any
member failing either test is never queued — so no member of such a group is
deleted.  The elected parent release is a parameter, covering the
implementation's nondeterministic map-iteration choice. -/
theorem C4_removal_group_eligibility (parse : String → Release) (now : ℤ)
    (parentrls : Release) (v : List Torrent) :
    (∀ h ∈ removalHashes parse now parentrls v,
      ∃ x ∈ v, x.hash = h ∧ ∀ s ∈ v, parse s.name = parse x.name →
        1 ≤ s.completionOn ∧ 1209600 ≤ now - s.completionOn) ∧
    ((∀ a ∈ v, ∀ b ∈ v, a.hash = b.hash → a = b) →
      ∀ x ∈ v, (∃ s ∈ v, parse s.name = parse x.name ∧
        (s.completionOn < 1 ∨ now - s.completionOn < 1209600)) →
      x.hash ∉ removalHashes parse now parentrls v) := by
  have part1 : ∀ h ∈ removalHashes parse now parentrls v,
      ∃ x ∈ v, x.hash = h ∧ ∀ s ∈ v, parse s.name = parse x.name →
        1 ≤ s.completionOn ∧ 1209600 ≤ now - s.completionOn := by
    intro h hmem
    rw [removalHashes] at hmem
    rcases List.mem_flatMap.mp hmem with ⟨child, hchild, hin⟩
    by_cases hpar : parse child.name = parentrls
    · rw [if_pos hpar] at hin
      exact absurd hin (List.not_mem_nil h)
    · rw [if_neg hpar] at hin
      cases hcol : collectGroup parse (parse child.name) now v with
      | none => rw [hcol] at hin; exact absurd hin (List.not_mem_nil h)
      | some hs =>
        rw [hcol] at hin
        rcases collectGroup_hash parse (parse child.name) now v hs hcol h hin with
          ⟨x, hx, hhash, hname⟩
        refine ⟨x, hx, hhash, ?_⟩
        intro s hsmem hsname
        exact collectGroup_eligible parse (parse child.name) now v hs hcol s hsmem
          (by rw [hsname, hname])
  refine ⟨part1, ?_⟩
  intro hinj x hx hbad habs
  rcases part1 x.hash habs with ⟨y, hy, hyhash, hyelig⟩
  have hxy : y = x := hinj y hy x hx hyhash
  subst hxy
  rcases hbad with ⟨s, hsmem, hsname, hsbad⟩
  have := hyelig s hsmem hsname
  omega

theorem C4_witness :
    ({ hash := "x1", name := "G", completionOn := 100 } : Torrent).hash ∉
      removalHashes parse4 10000000 parent4 v4 := by
  have h := (C4_removal_group_eligibility parse4 10000000 parent4 v4).2
    (by decide)
    ({ hash := "x1", name := "G", completionOn := 100 } : Torrent)
    (by decide)
    ⟨{ hash := "x2", name := "G", completionOn := 9000000 }, by decide, by decide,
      by decide⟩
  exact h

theorem cleanWalkFrom_eq_findSome (parent child : Entry) :
    ∀ L : List (Entry → Entry → Option Entry),
      (L.map hashGated).findSome? (fun g => g parent child)
        = cleanWalkFrom parent child L := by
  intro L
  induction L with
  | nil => rfl
  | cons f fs ih =>
    simp only [List.map_cons, List.findSome?_cons]
    cases hf : f parent child with
    | none => simp only [cleanWalkFrom, hashGated, hf, ih]
    | some res =>
      by_cases hh : res.t.hash = parent.t.hash
      · simp only [cleanWalkFrom, hashGated, hf, if_pos hh, ih]
      · simp only [cleanWalkFrom, hashGated, hf, if_neg hh]

theorem cleanStep_eq_amended (parse : String → Release) (st : Entry × (String → ℕ))
    (tor : Torrent) : cleanStep parse st tor = amendedStepC5 parse st tor := by
  unfold cleanStep amendedStepC5 amendedWalkC5
  by_cases hdup : st.1.r = parse tor.name
  · simp only [if_pos hdup]
  · simp only [if_neg hdup, List.findSome?_cons]
    cases hres : checkResolution st.1 ⟨tor, parse tor.name⟩ with
    | none =>
      simp only [gatedResolution, hres, cleanWalk, cleanWalkFrom_eq_findSome]
    | some res =>
      cases hsrc : checkSource st.1 ⟨tor, parse tor.name⟩ with
      | none => simp only [gatedResolution, hres, hsrc]
      | some src =>
        by_cases hh : src.t.hash = res.t.hash
        · simp only [gatedResolution, hres, hsrc, if_pos hh]
        · simp only [gatedResolution, hres, hsrc, if_neg hh, cleanWalk,
            cleanWalkFrom_eq_findSome]

theorem foldl_clean_eq_amended (parse : String → Release) :
    ∀ (l : List Torrent) (st : Entry × (String → ℕ)),
      l.foldl (cleanStep parse) st = l.foldl (amendedStepC5 parse) st := by
  intro l
  induction l with
  | nil => intro st; rfl
  | cons x xs ih =>
    intro st
    rw [List.foldl_cons, List.foldl_cons, cleanStep_eq_amended, ih]

/-- C5 amended: the parent-election scan of handleClean equals the amended
description — it scans every bucket member including the seed (whose
self-comparison gives its title an initial vote); an exact duplicate of the
parent bumps that title; a resolution winner of either side accepted by the
source gate (source abstains or agrees by hash) replaces the parent and resets
the tally; otherwise only a later-comparator winner differing from the parent
by hash replaces and resets, and a walk whose comparators all tie or favor the
parent counts a vote for the member's own title. -/
theorem C5_amended_scan_eq (parse : String → Release) (v : List Torrent) :
    cleanScan parse v = amendedScanC5 parse v := by
  cases v with
  | nil => rfl
  | cons v0 rest =>
    show (v0 :: rest).foldl (cleanStep parse) (⟨v0, parse v0.name⟩, fun _ => 0)
        = rest.foldl (amendedStepC5 parse) (⟨v0, parse v0.name⟩, singleVote v0.name)
    rw [List.foldl_cons]
    have hstep : cleanStep parse (⟨v0, parse v0.name⟩, fun _ => 0) v0 =
        (⟨v0, parse v0.name⟩, singleVote v0.name) := by
      unfold cleanStep
      simp only [if_pos rfl]
      refine Prod.ext rfl ?_
      funext s
      simp [bump, singleVote]
    rw [hstep, foldl_clean_eq_amended]

/-- C5 counterexample: a two-member bucket whose seed strictly wins the HDR
comparator against the second member while every other comparator ties.  The
code's scan skips the parent-side HDR win, treats the walk as a full tie and
gives the second member's title a vote; the claim's scan takes "any strict
winner of the walk", resets the tally to the seed and leaves the second title
voteless.  The tallies differ at that title, refuting the claimed algorithm. -/
theorem C5_counterexample :
    relA5 ≠ relB5 ∧
    (cleanScan parse5 [ta5, tb5]).2 "TB" = 1 ∧
    (claimScanC5 parse5 [ta5, tb5]).2 "TB" = 0 := by decide
